import Mathlib

/-!
# Verification of `github_wiki_mcp` (src/src/wiki-operations.ts)

Shallow embedding of the wiki-operations module of the `github_wiki_mcp`
repository, together with proofs of the specification claims about it.

JavaScript strings are embedded as `List Char` (`JsStr`).  The embedding has
two layers:

* a pure data-semantics layer: `normalizePageName` plus the five operations
  acting on a remote-store snapshot `Store` (a finite map from file name to
  file content), with the transport (clone / commit / push) assumed to
  succeed — this layer settles the claims about page naming, page content
  and not-found errors;
* a control-flow layer: each operation's clone / local-op / stage / commit /
  push / cleanup skeleton run against an oracle of stage outcomes, producing
  an event trace — this layer settles the claims about cleanup and
  clone-failure handling.
-/

namespace WikiMcp

/-- JavaScript strings are modelled as lists of characters. -/
abbrev JsStr := List Char

/-- Coerce a Lean string literal to the `JsStr` model. -/
def str (s : String) : JsStr := s.data

/-! ## Page Identity & Path Resolver (`normalizePageName`, lines 41–47)

The TypeScript source:

```
function normalizePageName(pageName: string): string {
  const normalized = pageName
    .replace(/\s+/g, '-')
    .replace(/[^a-zA-Z0-9\-_]/g, '');
  return normalized.endsWith('.md') ? normalized : `${normalized}.md`;
}
```
-/

/-- The character class of the JavaScript regex `\s`, by code point:
`\t` `\n` `\v` `\f` `\r` (9–13), space (32), NBSP (160), Ogham space (5760),
U+2000–U+200A (8192–8202), U+2028, U+2029, U+202F, U+205F, U+3000, U+FEFF. -/
def isJsWhitespace (c : Char) : Bool :=
  decide ((9 ≤ c.toNat ∧ c.toNat ≤ 13) ∨ c.toNat = 32 ∨ c.toNat = 160 ∨
          c.toNat = 5760 ∨ (8192 ≤ c.toNat ∧ c.toNat ≤ 8202) ∨
          c.toNat = 8232 ∨ c.toNat = 8233 ∨ c.toNat = 8239 ∨
          c.toNat = 8287 ∨ c.toNat = 12288 ∨ c.toNat = 65279)

/-- The character class of the regex `[a-zA-Z0-9\-_]`, by code point:
`a`–`z` (97–122), `A`–`Z` (65–90), `0`–`9` (48–57), `-` (45), `_` (95). -/
def isAllowedChar (c : Char) : Bool :=
  decide ((97 ≤ c.toNat ∧ c.toNat ≤ 122) ∨ (65 ≤ c.toNat ∧ c.toNat ≤ 90) ∨
          (48 ≤ c.toNat ∧ c.toNat ≤ 57) ∨ c.toNat = 45 ∨ c.toNat = 95)

/-- `replace(/\s+/g, '-')`: scan the string left to right; the flag remembers
whether the previous character was part of a whitespace run, so each maximal
run of whitespace contributes a single `'-'`. -/
def collapseWsGo : Bool → JsStr → JsStr
  | _, [] => []
  | prevWs, c :: cs =>
    if isJsWhitespace c then
      if prevWs then collapseWsGo true cs
      else '-' :: collapseWsGo true cs
    else c :: collapseWsGo false cs

/-- `endsWith('.md')` on the model strings. -/
def endsWithMd (l : JsStr) : Bool := (str ".md").isSuffixOf l

/-- The result of the two `replace` calls: collapse whitespace runs to
hyphens, then delete every character outside `[a-zA-Z0-9\-_]`. -/
def cleanTitle (pageName : JsStr) : JsStr :=
  (collapseWsGo false pageName).filter isAllowedChar

/-- `normalizePageName` (wiki-operations.ts lines 41–47). -/
def normalizePageName (pageName : JsStr) : JsStr :=
  let normalized := cleanTitle pageName
  if endsWithMd normalized then normalized else normalized ++ str ".md"

/-! ### The resolver algorithm as the specification words it

Spec §4.1: "(a) replace every maximal run of whitespace with a single
hyphen; (b) delete every remaining character that is not a letter, digit,
hyphen, or underscore; (c) if the result does not already end with the
canonical markdown extension, append it."  Step (a) is formalised here by a
different recursion (emit one hyphen and drop the whole run at once), to be
compared with the source's scan. -/

/-- Spec step (a): on meeting a whitespace character, emit one hyphen and
skip the entire maximal whitespace run. -/
def replaceWsRunsSpec : JsStr → JsStr
  | [] => []
  | c :: cs =>
    if isJsWhitespace c then '-' :: replaceWsRunsSpec (cs.dropWhile isJsWhitespace)
    else c :: replaceWsRunsSpec cs
termination_by l => l.length
decreasing_by
  · simp only [List.length_cons]
    exact Nat.lt_succ_of_le (List.dropWhile_sublist isJsWhitespace).length_le
  · simp

/-- Steps (a)–(c) of the resolver exactly as the specification states them. -/
def normalizePageNameSpec (pageName : JsStr) : JsStr :=
  let a := replaceWsRunsSpec pageName
  let b := a.filter isAllowedChar
  if endsWithMd b then b else b ++ str ".md"

/-! ### Resolver lemmas -/

theorem collapseWsGo_eq_spec (l : JsStr) :
    collapseWsGo true l = replaceWsRunsSpec (l.dropWhile isJsWhitespace) ∧
    collapseWsGo false l = replaceWsRunsSpec l := by
  induction l with
  | nil => simp [collapseWsGo, replaceWsRunsSpec]
  | cons c cs ih =>
    by_cases hws : isJsWhitespace c
    · constructor
      · simp only [collapseWsGo, hws, if_true, List.dropWhile_cons, ih.1]
      · simp only [collapseWsGo, hws, if_true, Bool.false_eq_true, if_false]
        rw [replaceWsRunsSpec]
        simp only [hws, if_true, ih.1]
    · constructor
      · simp only [collapseWsGo, hws, if_false, Bool.false_eq_true,
          List.dropWhile_cons, ih.2]
        rw [replaceWsRunsSpec]
        simp [hws]
      · simp only [collapseWsGo, hws, if_false, Bool.false_eq_true, ih.2]
        rw [replaceWsRunsSpec]
        simp [hws]

/-- A character accepted by `[a-zA-Z0-9\-_]` is never matched by `\s`. -/
theorem isAllowedChar_not_ws {c : Char} (h : isAllowedChar c = true) :
    isJsWhitespace c = false := by
  simp only [isAllowedChar, decide_eq_true_eq] at h
  simp only [isJsWhitespace, decide_eq_false_iff_not]
  omega

/-- If no character of `l` is whitespace, the whitespace-collapsing scan is
the identity, whatever the flag. -/
theorem collapseWsGo_of_no_ws (b : Bool) (l : JsStr)
    (h : ∀ c ∈ l, isJsWhitespace c = false) : collapseWsGo b l = l := by
  induction l generalizing b with
  | nil => simp [collapseWsGo]
  | cons c cs ih =>
    have hc : isJsWhitespace c = false := h c (by simp)
    simp only [collapseWsGo, hc, Bool.false_eq_true, if_false]
    exact congrArg (c :: ·) (ih false fun d hd => h d (by simp [hd]))

/-- A string that ends with `.md` contains a dot. -/
theorem mem_dot_of_endsWithMd {l : JsStr} (h : endsWithMd l = true) :
    '.' ∈ l := by
  rw [endsWithMd, List.isSuffixOf_iff_suffix] at h
  rcases h with ⟨t, ht⟩
  rw [← ht]
  simp [str]

/-- `cleanTitle` never ends with `.md` (the dot is deleted by the filter),
so the extension branch of `normalizePageName` always appends. -/
theorem endsWithMd_cleanTitle (t : JsStr) : endsWithMd (cleanTitle t) = false := by
  by_contra h
  have h' : endsWithMd (cleanTitle t) = true := by
    cases hb : endsWithMd (cleanTitle t) <;> simp_all
  have hdot : '.' ∈ cleanTitle t := mem_dot_of_endsWithMd h'
  have : isAllowedChar '.' = true := List.of_mem_filter hdot
  simp [isAllowedChar] at this

/-- `normalizePageName t` is always the cleaned title followed by `.md`. -/
theorem normalizePageName_eq (t : JsStr) :
    normalizePageName t = cleanTitle t ++ str ".md" := by
  rw [normalizePageName]
  simp [endsWithMd_cleanTitle t]

/-- Every character of `cleanTitle t` is in the allowed class. -/
theorem mem_cleanTitle_allowed {t : JsStr} {c : Char} (h : c ∈ cleanTitle t) :
    isAllowedChar c = true := List.of_mem_filter h

/-- Re-cleaning the normalized name strips the extension's dot:
`cleanTitle (cleanTitle t ++ ".md") = cleanTitle t ++ "md"`. -/
theorem cleanTitle_of_normalized (t : JsStr) :
    cleanTitle (cleanTitle t ++ str ".md") = cleanTitle t ++ str "md" := by
  have hnows : ∀ c ∈ cleanTitle t ++ str ".md", isJsWhitespace c = false := by
    intro c hc
    rcases List.mem_append.1 hc with hc | hc
    · exact isAllowedChar_not_ws (mem_cleanTitle_allowed hc)
    · fin_cases hc <;> decide
  rw [cleanTitle, collapseWsGo_of_no_ws false _ hnows, List.filter_append]
  have hx : (cleanTitle t).filter isAllowedChar = cleanTitle t :=
    List.filter_eq_self.2 fun c hc => mem_cleanTitle_allowed hc
  rw [hx]
  rfl

/-! ## Claim C1 -/

/-- C1: the resolver implements exactly the specification's algorithm —
(a) collapse each maximal whitespace run to one hyphen, (b) delete every
remaining character outside letters/digits/hyphen/underscore, (c) append
`.md` when the result does not already end with it — and on the two concrete
scenarios, `"Architettura del Sistema"` normalizes to
`"Architettura-del-Sistema.md"` and `"API Documentation!!"` to
`"API-Documentation.md"`. -/
theorem normalizePageName_follows_spec :
    (∀ t : JsStr, normalizePageName t = normalizePageNameSpec t) ∧
    normalizePageName (str "Architettura del Sistema") =
      str "Architettura-del-Sistema.md" ∧
    normalizePageName (str "API Documentation!!") = str "API-Documentation.md" := by
  refine ⟨fun t => ?_, by decide, by decide⟩
  rw [normalizePageName, normalizePageNameSpec, cleanTitle,
    (collapseWsGo_eq_spec t).2]

/-! ## Claim C2 -/

/-- C2 counterexample: normalization is not idempotent.  The title `"A"`
normalizes to `"A.md"`, but normalizing `"A.md"` again yields `"Amd.md"`
(the filter deletes the dot, so the `endsWith(".md")` test fails). -/
theorem normalizePageName_not_idempotent :
    normalizePageName (str "A") = str "A.md" ∧
    normalizePageName (normalizePageName (str "A")) = str "Amd.md" ∧
    normalizePageName (normalizePageName (str "A")) ≠
      normalizePageName (str "A") := by
  refine ⟨by decide, by decide, by decide⟩

/-- C2 amended: renormalizing the file name produced for `t` never returns
it unchanged; instead the dot of the extension is deleted and a fresh `.md`
appended, so `normalizePageName (normalizePageName t)` is the cleaned title
followed by `"md.md"`. -/
theorem normalizePageName_renormalize (t : JsStr) :
    normalizePageName t = cleanTitle t ++ str ".md" ∧
    normalizePageName (normalizePageName t) = cleanTitle t ++ str "md.md" ∧
    normalizePageName (normalizePageName t) ≠ normalizePageName t := by
  have h1 := normalizePageName_eq t
  have h2 : normalizePageName (normalizePageName t) = cleanTitle t ++ str "md.md" := by
    rw [h1, normalizePageName_eq (cleanTitle t ++ str ".md"),
      cleanTitle_of_normalized, List.append_assoc]
    rfl
  refine ⟨h1, h2, fun h => ?_⟩
  rw [h2, h1] at h
  have : str "md.md" = str ".md" := List.append_cancel_left h
  exact absurd this (by decide)

/-! ## Claim C9 -/

/-- C9 counterexample: a string consisting entirely of whitespace does not
normalize to `".md"` alone — the whitespace run becomes a hyphen, which is
an allowed character, so `" "` normalizes to `"-.md"`. -/
theorem normalizePageName_ws_only :
    isJsWhitespace ' ' = true ∧
    normalizePageName (str " ") = str "-.md" ∧
    normalizePageName (str " ") ≠ str ".md" := by
  refine ⟨by decide, by decide, by decide⟩

/-- C9 amended: the resolver is a total function with no error conditions;
the empty string normalizes to `".md"` alone, and so does every string all
of whose characters are disallowed and non-whitespace (whitespace-bearing
titles instead contribute hyphens before the extension). -/
theorem normalizePageName_empty_and_disallowed :
    normalizePageName [] = str ".md" ∧
    ∀ l : JsStr, (∀ c ∈ l, isJsWhitespace c = false ∧ isAllowedChar c = false) →
      normalizePageName l = str ".md" := by
  refine ⟨by decide, fun l h => ?_⟩
  rw [normalizePageName_eq l, cleanTitle,
    collapseWsGo_of_no_ws false l fun c hc => (h c hc).1,
    List.filter_eq_nil_iff.2 fun c hc => by simp [(h c hc).2]]
  rfl

/-- C9 witness: the all-disallowed title `"!!"` normalizes to `".md"`. -/
theorem normalizePageName_empty_and_disallowed_witness :
    normalizePageName (str "!!") = str ".md" :=
  normalizePageName_empty_and_disallowed.2 (str "!!") (by decide)

/-! ## Data-semantics layer: the five operations on the remote store

The remote wiki store is a flat map from file name to file content (spec §3:
"each wiki page is one file at the tree root").  This layer models the
file-content behaviour of the five operations with the transport (clone,
add, commit, push) succeeding; the control-flow layer below models the
failure and cleanup paths. -/

/-- A snapshot of the remote wiki store: file name ↦ file content. -/
abbrev Store := JsStr → Option JsStr

/-- `fs.writeFile` on the working copy, reflected to the pushed store. -/
def Store.insert (s : Store) (k v : JsStr) : Store :=
  fun q => if q = k then some v else s q

/-- `fs.unlink` on the working copy, reflected to the pushed store. -/
def Store.erase (s : Store) (k : JsStr) : Store :=
  fun q => if q = k then none else s q

/-- The errors thrown by wiki-operations.ts. -/
inductive WikiError
  | pageNotFound (fileName : JsStr)
  | cloneFailed (msg : JsStr)
  | localFailed (msg : JsStr)
  | gitFailed (msg : JsStr)
deriving DecidableEq

/-- The message text of each thrown `Error`. -/
def WikiError.message : WikiError → JsStr
  | pageNotFound fileName => str "Page " ++ fileName ++ str " does not exist"
  | cloneFailed msg => str "Failed to clone wiki: " ++ msg
  | localFailed msg => msg
  | gitFailed msg => msg

/-- Failures of a single `fs` call inside an operation. -/
inductive FsError
  | fileNotFound
  | accessDenied
  | ioFailure (code : JsStr)
deriving DecidableEq

/-- Result shape of `writeWikiPage`: `{ success, page, url }`. -/
structure WritePayload where
  success : Bool
  page : JsStr
  url : JsStr
deriving DecidableEq

/-- Result shape of `appendToWikiPage` / `deleteWikiPage`: `{ success, page }`. -/
structure PagePayload where
  success : Bool
  page : JsStr
deriving DecidableEq

/-- Result shape of `readWikiPage`: `{ success, page, content }`. -/
structure ReadPayload where
  success : Bool
  page : JsStr
  content : JsStr
deriving DecidableEq

/-- `fileName.replace('.md', '')` — JavaScript `String.replace` with a string
pattern removes only the first occurrence. -/
def replaceFirstMd : JsStr → JsStr
  | [] => []
  | c :: cs =>
    if (str ".md").isPrefixOf (c :: cs) then cs.drop 2
    else c :: replaceFirstMd cs

/-- The page URL built by `writeWikiPage` (line 106). -/
def wikiPageUrl (owner repo fileName : JsStr) : JsStr :=
  str "https://github.com/" ++ owner ++ str "/" ++ repo ++ str "/wiki/" ++
    replaceFirstMd fileName

/-- `writeWikiPage` (lines 89–118), data semantics: write the content as the
full contents of the resolved file and push. -/
def writeWikiPage (store : Store) (owner repo pageName content : JsStr) :
    Except WikiError WritePayload × Store :=
  let fileName := normalizePageName pageName
  (.ok ⟨true, fileName, wikiPageUrl owner repo fileName⟩,
   store.insert fileName content)

/-- The `fs.readFile` step of `appendToWikiPage` as the store resolves it:
an absent file raises a not-found file-system error. -/
def storeReadFile (store : Store) (fileName : JsStr) : Except FsError JsStr :=
  match store fileName with
  | some content => .ok content
  | none => .error .fileNotFound

/-- `appendToWikiPage` (lines 123–163) with the outcome of its internal
`fs.readFile` made explicit: the `try/catch` turns any read failure into
empty existing content, then the new content is
`existingContent + "\n\n" + content` when the existing content is non-empty
(JavaScript string truthiness) and just `content` otherwise. -/
def appendToWikiPageWithRead (store : Store) (pageName content : JsStr)
    (readResult : Except FsError JsStr) :
    Except WikiError PagePayload × Store :=
  let fileName := normalizePageName pageName
  let existingContent := match readResult with
    | .ok c => c
    | .error _ => []
  let newContent :=
    if existingContent = [] then content
    else existingContent ++ str "\n\n" ++ content
  (.ok ⟨true, fileName⟩, store.insert fileName newContent)

/-- `appendToWikiPage`, data semantics, with the read resolved by the store. -/
def appendToWikiPage (store : Store) (pageName content : JsStr) :
    Except WikiError PagePayload × Store :=
  appendToWikiPageWithRead store pageName content
    (storeReadFile store (normalizePageName pageName))

/-- `readWikiPage` (lines 243–274), data semantics: the `fs.access` check on
an absent file throws `Page <fileName> does not exist`; otherwise the full
contents are returned. -/
def readWikiPage (store : Store) (pageName : JsStr) :
    Except WikiError ReadPayload :=
  let fileName := normalizePageName pageName
  match store fileName with
  | none => .error (.pageNotFound fileName)
  | some content => .ok ⟨true, fileName, content⟩

/-- `deleteWikiPage` (lines 204–238), data semantics: the existence check on
an absent file throws `Page <fileName> does not exist`; otherwise the file
is unlinked and the removal pushed. -/
def deleteWikiPage (store : Store) (pageName : JsStr) :
    Except WikiError PagePayload × Store :=
  let fileName := normalizePageName pageName
  match store fileName with
  | none => (.error (.pageNotFound fileName), store)
  | some _ => (.ok ⟨true, fileName⟩, store.erase fileName)

/-! ## Claim C3 -/

/-- C3: `appendToWikiPage` always succeeds (never a not-found error); the new
content of the resolved file is `c1 ++ "\n\n" ++ c2` when the page existed
with non-empty content `c1`, and exactly `c2` when the page was absent or
had empty content. -/
theorem appendToWikiPage_semantics (store : Store) (p c2 : JsStr) :
    (appendToWikiPage store p c2).1 = .ok ⟨true, normalizePageName p⟩ ∧
    (store (normalizePageName p) = none →
      (appendToWikiPage store p c2).2 (normalizePageName p) = some c2) ∧
    (store (normalizePageName p) = some [] →
      (appendToWikiPage store p c2).2 (normalizePageName p) = some c2) ∧
    (∀ c1, store (normalizePageName p) = some c1 → c1 ≠ [] →
      (appendToWikiPage store p c2).2 (normalizePageName p) =
        some (c1 ++ str "\n\n" ++ c2)) := by
  refine ⟨?_, ?_, ?_, ?_⟩
  · rfl
  · intro h
    simp [appendToWikiPage, appendToWikiPageWithRead, storeReadFile, h,
      Store.insert]
  · intro h
    simp [appendToWikiPage, appendToWikiPageWithRead, storeReadFile, h,
      Store.insert]
  · intro c1 h hne
    simp [appendToWikiPage, appendToWikiPageWithRead, storeReadFile, h, hne,
      Store.insert]

/-- C3 witness: appending `"hi"` to the absent page `"Home"` of the empty
store creates it with content exactly `"hi"`, and appending `"b"` to a page
holding `"a"` yields `"a\n\nb"`. -/
theorem appendToWikiPage_semantics_witness :
    (appendToWikiPage (fun _ => none) (str "Home") (str "hi")).2
      (normalizePageName (str "Home")) = some (str "hi") ∧
    (appendToWikiPage (Store.insert (fun _ => none) (str "Home.md") (str "a"))
        (str "Home") (str "b")).2 (normalizePageName (str "Home")) =
      some (str "a" ++ str "\n\n" ++ str "b") :=
  ⟨(appendToWikiPage_semantics (fun _ => none) (str "Home") (str "hi")).2.1 rfl,
   (appendToWikiPage_semantics _ (str "Home") (str "b")).2.2.2 (str "a")
     (by decide) (by decide)⟩

/-! ## Claim C5 -/

/-- C5: on a store where the resolved file is absent, `readWikiPage` and
`deleteWikiPage` each fail with the `Page <fileName> does not exist` error
(and delete leaves the store untouched), while `writeWikiPage` and
`appendToWikiPage` still return a success payload. -/
theorem absentPage_read_delete_fail (store : Store) (p : JsStr)
    (h : store (normalizePageName p) = none) :
    readWikiPage store p = .error (.pageNotFound (normalizePageName p)) ∧
    deleteWikiPage store p =
      (.error (.pageNotFound (normalizePageName p)), store) ∧
    (WikiError.pageNotFound (normalizePageName p)).message =
      str "Page " ++ normalizePageName p ++ str " does not exist" ∧
    (∀ owner repo c, (writeWikiPage store owner repo p c).1 =
      .ok ⟨true, normalizePageName p,
           wikiPageUrl owner repo (normalizePageName p)⟩) ∧
    (∀ c, (appendToWikiPage store p c).1 = .ok ⟨true, normalizePageName p⟩) := by
  refine ⟨?_, ?_, rfl, fun owner repo c => rfl, fun c => rfl⟩
  · rw [readWikiPage]
    simp [h]
  · rw [deleteWikiPage]
    simp [h]

/-- C5 witness: reading and deleting the page `"Home"` on the empty store
both fail with the not-found error. -/
theorem absentPage_read_delete_fail_witness :
    readWikiPage (fun _ => none) (str "Home") =
      .error (.pageNotFound (normalizePageName (str "Home"))) ∧
    deleteWikiPage (fun _ => none) (str "Home") =
      (.error (.pageNotFound (normalizePageName (str "Home"))), fun _ => none) :=
  ⟨(absentPage_read_delete_fail (fun _ => none) (str "Home") rfl).1,
   (absentPage_read_delete_fail (fun _ => none) (str "Home") rfl).2.1⟩

/-! ## Claim C6 -/

/-- C6: write/read round-trip — writing content `c` to page `p` and then
reading page `p` on the resulting store returns exactly `c`, for every
store, page title and content (including the empty content). -/
theorem write_read_roundtrip (store : Store) (owner repo p c : JsStr) :
    readWikiPage (writeWikiPage store owner repo p c).2 p =
      .ok ⟨true, normalizePageName p, c⟩ := by
  rw [readWikiPage, writeWikiPage]
  simp [Store.insert]

/-! ## List operation (`listWikiPages`, lines 168–199) -/

/-- The record produced per page: `{ name, path, size }` (`WikiPageInfo`). -/
structure WikiPageInfo where
  name : JsStr
  path : JsStr
  size : Nat
deriving DecidableEq

/-- The comparator passed to `sort`: `a.name.localeCompare(b.name)`.  An
element may precede another exactly when the locale comparison is not
"greater".  The locale comparison itself is an external collaborator
(`String.prototype.localeCompare`), so it is a parameter. -/
def localeLe (localeCmp : JsStr → JsStr → Ordering) (a b : WikiPageInfo) : Bool :=
  localeCmp a.name b.name != Ordering.gt

/-- `listWikiPages`, data semantics: `files` is the `readdir` enumeration of
the working-copy root paired with each entry's `stat` size.  Keep the
entries ending in `.md`, build one record per entry with
`name = file.replace('.md', '')`, `path = file`, `size`, and sort by the
locale comparison on `name`. -/
def listWikiPages (localeCmp : JsStr → JsStr → Ordering)
    (files : List (JsStr × Nat)) : List WikiPageInfo :=
  let mdFiles := files.filter fun f => endsWithMd f.1
  let pageInfos := mdFiles.map fun f => ⟨replaceFirstMd f.1, f.1, f.2⟩
  pageInfos.mergeSort (localeLe localeCmp)

/-! ## Claim C7 -/

unseal List.merge List.mergeSort in
/-- C7 counterexample: the `name` field is not "the file name minus the
extension".  `file.replace('.md', '')` deletes the first occurrence of
`.md`, so the file `"a.mdx.md"` produces the record name `"ax.md"`, not
`"a.mdx"`. -/
theorem listWikiPages_name_cex :
    listWikiPages (fun _ _ => Ordering.lt) [(str "a.mdx.md", 5)] =
      [⟨str "ax.md", str "a.mdx.md", 5⟩] ∧
    str "ax.md" ≠ str "a.mdx" := by
  exact ⟨by decide, by decide⟩

/-- C7 amended: for every comparator (with the transitivity and totality a
locale comparison provides) and every enumeration of the working-copy root,
`listWikiPages` returns exactly one record per file ending in `.md` and none
for any other file — with `path` the file name, `size` its size, and `name`
the file name with its *first* occurrence of `.md` removed (which equals the
name minus the extension whenever `.md` occurs nowhere earlier in the name)
— and the records are pairwise ordered by the locale comparison on `name`. -/
theorem listWikiPages_spec (localeCmp : JsStr → JsStr → Ordering)
    (files : List (JsStr × Nat))
    (htrans : ∀ a b c : JsStr, (localeCmp a b != Ordering.gt) = true →
      (localeCmp b c != Ordering.gt) = true →
      (localeCmp a c != Ordering.gt) = true)
    (htotal : ∀ a b : JsStr,
      ((localeCmp a b != Ordering.gt) || (localeCmp b a != Ordering.gt)) = true) :
    List.Perm (listWikiPages localeCmp files)
      ((files.filter fun f => endsWithMd f.1).map
        (fun f => ⟨replaceFirstMd f.1, f.1, f.2⟩)) ∧
    (listWikiPages localeCmp files).Pairwise
      fun a b => localeLe localeCmp a b = true := by
  constructor
  · exact List.mergeSort_perm _ _
  · exact List.sorted_mergeSort
      (fun a b c hab hbc => htrans a.name b.name c.name hab hbc)
      (fun a b => htotal a.name b.name) _

/-- C7 witness: on the root `B.md` (1 byte), `a.md` (2 bytes), `c.txt`
(3 bytes), with a trivially total and transitive comparator, the listing is
a permutation of the two `.md` records and is pairwise ordered. -/
theorem listWikiPages_spec_witness :
    List.Perm (listWikiPages (fun _ _ => Ordering.lt)
        [(str "B.md", 1), (str "a.md", 2), (str "c.txt", 3)])
      (([(str "B.md", 1), (str "a.md", 2), (str "c.txt", 3)].filter
          fun f => endsWithMd f.1).map
        (fun f => ⟨replaceFirstMd f.1, f.1, f.2⟩)) ∧
    (listWikiPages (fun _ _ => Ordering.lt)
        [(str "B.md", 1), (str "a.md", 2), (str "c.txt", 3)]).Pairwise
      fun a b => localeLe (fun _ _ => Ordering.lt) a b = true :=
  listWikiPages_spec (fun _ _ => Ordering.lt)
    [(str "B.md", 1), (str "a.md", 2), (str "c.txt", 3)]
    (fun _ _ _ _ _ => rfl) (fun _ _ => rfl)

/-! ## Claim C10 -/

/-- C10: in `appendToWikiPage`, any failure of the internal read — not only
file absence — is swallowed by the `catch` and treated as empty existing
content: the operation behaves exactly as if the page were absent, reports
success, and overwrites the file with the appended content alone. -/
theorem append_read_error_ignored (store : Store) (p c : JsStr) (e : FsError) :
    appendToWikiPageWithRead store p c (.error e) =
      appendToWikiPageWithRead store p c (.error .fileNotFound) ∧
    (appendToWikiPageWithRead store p c (.error e)).1 =
      .ok ⟨true, normalizePageName p⟩ ∧
    (appendToWikiPageWithRead store p c (.error e)).2 (normalizePageName p) =
      some c := by
  refine ⟨rfl, rfl, ?_⟩
  simp [appendToWikiPageWithRead, Store.insert]

/-! ## Control-flow layer: clone / stage / commit / push / cleanup

Each operation has the shape `try { cloneWiki; body } finally { if (tmpDir)
cleanup(tmpDir) }`.  The effectful stages are driven by an oracle of stage
outcomes, and each run returns its result together with the ordered trace
of effect events, so that the cleanup discipline is a provable property of
the trace. -/

/-- The observable effect events of one operation invocation. -/
inductive GitEvent
  | mkdtempCall
  | cloneCall
  | rmTmpCall
  | cleanupCall
  | writeFileCall
  | readFileCall
  | accessCall
  | unlinkCall
  | readdirCall
  | statCall
  | addCall
  | commitCall
  | pushCall
deriving DecidableEq

/-- Outcomes of the effectful stages of one invocation, as an oracle: each
field is the result the corresponding external call would produce. -/
structure StageOracle where
  cloneResult : Except JsStr Unit
  accessResult : Except JsStr Unit
  readResult : Except JsStr Unit
  localResult : Except JsStr Unit
  addResult : Except JsStr Unit
  commitResult : Except JsStr Unit
  pushResult : Except JsStr Unit
  cleanupResult : Except JsStr Unit

/-- `cloneWiki` (lines 59–73): `mkdtemp`, then `git.clone`; on clone failure
the fresh temporary directory is removed (`rmTmpCall`) and the error is
rethrown wrapped as `Failed to clone wiki: <msg>`. -/
def cloneWikiRun (cloneResult : Except JsStr Unit) :
    Except WikiError Unit × List GitEvent :=
  match cloneResult with
  | .ok _ => (.ok (), [.mkdtempCall, .cloneCall])
  | .error msg =>
      (.error (.cloneFailed msg), [.mkdtempCall, .cloneCall, .rmTmpCall])

/-- `cleanup` (lines 78–84): one removal attempt; a removal failure is
caught and logged (`true` in the second component), never propagated. -/
def cleanupRun (cleanupResult : Except JsStr Unit) : List GitEvent × Bool :=
  match cleanupResult with
  | .ok _ => ([.cleanupCall], false)
  | .error _ => ([.cleanupCall], true)

/-- The shared `try { cloneWiki ... } finally { if (tmpDir) cleanup }`
skeleton: when the clone fails its error propagates and the `finally` sees
`tmpDir === null`, so no cleanup runs; when the clone succeeds the body's
result stands and exactly one cleanup attempt is appended to the trace. -/
def withWorkingCopy (cloneResult cleanupResult : Except JsStr Unit)
    (body : Except WikiError Unit × List GitEvent) :
    Except WikiError Unit × List GitEvent :=
  match cloneWikiRun cloneResult with
  | (.error e, evs) => (.error e, evs)
  | (.ok _, evs) => (body.1, evs ++ body.2 ++ (cleanupRun cleanupResult).1)

/-- The `git.add; git.commit; git.push` tail shared by the mutating
operations; the first failing stage aborts the rest. -/
def gitChain (o : StageOracle) (pre : List GitEvent) :
    Except WikiError Unit × List GitEvent :=
  match o.addResult with
  | .error msg => (.error (.gitFailed msg), pre ++ [.addCall])
  | .ok _ =>
    match o.commitResult with
    | .error msg => (.error (.gitFailed msg), pre ++ [.addCall, .commitCall])
    | .ok _ =>
      match o.pushResult with
      | .error msg =>
          (.error (.gitFailed msg), pre ++ [.addCall, .commitCall, .pushCall])
      | .ok _ => (.ok (), pre ++ [.addCall, .commitCall, .pushCall])

/-- Body of `writeWikiPage` (lines 99–112): `fs.writeFile`, then the git
chain. -/
def writeBody (o : StageOracle) : Except WikiError Unit × List GitEvent :=
  match o.localResult with
  | .error msg => (.error (.localFailed msg), [.writeFileCall])
  | .ok _ => gitChain o [.writeFileCall]

/-- Body of `appendToWikiPage` (lines 133–157): `fs.readFile` whose failure
is swallowed by its own `catch` (the body never depends on `readResult`),
then `fs.writeFile` and the git chain. -/
def appendBody (o : StageOracle) : Except WikiError Unit × List GitEvent :=
  match o.localResult with
  | .error msg => (.error (.localFailed msg), [.readFileCall, .writeFileCall])
  | .ok _ => gitChain o [.readFileCall, .writeFileCall]

/-- Body of `listWikiPages` (lines 177–193): `fs.readdir`, then `fs.stat`
per entry; no git chain. -/
def listBody (o : StageOracle) : Except WikiError Unit × List GitEvent :=
  match o.localResult with
  | .error msg => (.error (.localFailed msg), [.readdirCall])
  | .ok _ => (.ok (), [.readdirCall, .statCall])

/-- Body of `deleteWikiPage` (lines 214–227): `fs.access` existence check
(failure becomes the `Page <fileName> does not exist` error), `fs.unlink`,
then the git chain. -/
def deleteBody (o : StageOracle) (fileName : JsStr) :
    Except WikiError Unit × List GitEvent :=
  match o.accessResult with
  | .error _ => (.error (.pageNotFound fileName), [.accessCall])
  | .ok _ =>
    match o.localResult with
    | .error msg => (.error (.localFailed msg), [.accessCall, .unlinkCall])
    | .ok _ => gitChain o [.accessCall, .unlinkCall]

/-- Body of `readWikiPage` (lines 253–268): `fs.access` existence check
(failure becomes the `Page <fileName> does not exist` error), then
`fs.readFile`; no git chain. -/
def readBody (o : StageOracle) (fileName : JsStr) :
    Except WikiError Unit × List GitEvent :=
  match o.accessResult with
  | .error _ => (.error (.pageNotFound fileName), [.accessCall])
  | .ok _ =>
    match o.localResult with
    | .error msg => (.error (.localFailed msg), [.accessCall, .readFileCall])
    | .ok _ => (.ok (), [.accessCall, .readFileCall])

/-- `writeWikiPage`, control flow. -/
def writeWikiPageRun (o : StageOracle) : Except WikiError Unit × List GitEvent :=
  withWorkingCopy o.cloneResult o.cleanupResult (writeBody o)

/-- `appendToWikiPage`, control flow. -/
def appendToWikiPageRun (o : StageOracle) :
    Except WikiError Unit × List GitEvent :=
  withWorkingCopy o.cloneResult o.cleanupResult (appendBody o)

/-- `listWikiPages`, control flow. -/
def listWikiPagesRun (o : StageOracle) : Except WikiError Unit × List GitEvent :=
  withWorkingCopy o.cloneResult o.cleanupResult (listBody o)

/-- `deleteWikiPage`, control flow. -/
def deleteWikiPageRun (o : StageOracle) (fileName : JsStr) :
    Except WikiError Unit × List GitEvent :=
  withWorkingCopy o.cloneResult o.cleanupResult (deleteBody o fileName)

/-- `readWikiPage`, control flow. -/
def readWikiPageRun (o : StageOracle) (fileName : JsStr) :
    Except WikiError Unit × List GitEvent :=
  withWorkingCopy o.cloneResult o.cleanupResult (readBody o fileName)

/-! ### Control-flow lemmas -/

theorem cleanupRun_events (r : Except JsStr Unit) :
    (cleanupRun r).1 = [GitEvent.cleanupCall] := by
  cases r <;> rfl

/-- With the clone successful, the trace of the skeleton holds exactly one
cleanup attempt provided the body makes none. -/
theorem withWorkingCopy_count_cleanup (cu : Except JsStr Unit)
    (body : Except WikiError Unit × List GitEvent)
    (hb : body.2.count GitEvent.cleanupCall = 0) :
    (withWorkingCopy (.ok ()) cu body).2.count GitEvent.cleanupCall = 1 := by
  show (([GitEvent.mkdtempCall, GitEvent.cloneCall] ++ body.2 ++
    (cleanupRun cu).1).count GitEvent.cleanupCall) = 1
  rw [List.count_append, List.count_append, hb, cleanupRun_events]
  decide

/-- The skeleton's result is the clone error when the clone failed, and the
body's result otherwise — in particular it never depends on the cleanup
outcome. -/
theorem withWorkingCopy_fst (cl cu : Except JsStr Unit)
    (body : Except WikiError Unit × List GitEvent) :
    (withWorkingCopy cl cu body).1 =
      match cl with
      | .error msg => .error (.cloneFailed msg)
      | .ok _ => body.1 := by
  cases cl <;> rfl

theorem writeBody_no_cleanup (o : StageOracle) :
    (writeBody o).2.count GitEvent.cleanupCall = 0 := by
  rcases o with ⟨cl, ac, rd, lo, ad, cm, pu, cu⟩
  cases lo <;> cases ad <;> cases cm <;> cases pu <;> rfl

theorem appendBody_no_cleanup (o : StageOracle) :
    (appendBody o).2.count GitEvent.cleanupCall = 0 := by
  rcases o with ⟨cl, ac, rd, lo, ad, cm, pu, cu⟩
  cases lo <;> cases ad <;> cases cm <;> cases pu <;> rfl

theorem listBody_no_cleanup (o : StageOracle) :
    (listBody o).2.count GitEvent.cleanupCall = 0 := by
  rcases o with ⟨cl, ac, rd, lo, ad, cm, pu, cu⟩
  cases lo <;> rfl

theorem deleteBody_no_cleanup (o : StageOracle) (fileName : JsStr) :
    (deleteBody o fileName).2.count GitEvent.cleanupCall = 0 := by
  rcases o with ⟨cl, ac, rd, lo, ad, cm, pu, cu⟩
  cases ac <;> cases lo <;> cases ad <;> cases cm <;> cases pu <;> rfl

theorem readBody_no_cleanup (o : StageOracle) (fileName : JsStr) :
    (readBody o fileName).2.count GitEvent.cleanupCall = 0 := by
  rcases o with ⟨cl, ac, rd, lo, ad, cm, pu, cu⟩
  cases ac <;> cases lo <;> rfl

/-! ## Claim C4 -/

/-- C4: for each of the five operations, once the working copy is acquired
(the clone succeeded), the temporary directory's removal is attempted
exactly once in the returned trace — whatever the outcome of the local
operation, stage, commit, push, or of the removal itself — and replacing
the cleanup outcome by any other never changes the operation's result. -/
theorem cleanup_exactly_once (o : StageOracle) (fileName : JsStr)
    (h : o.cloneResult = .ok ()) :
    ((writeWikiPageRun o).2.count GitEvent.cleanupCall = 1 ∧
     (appendToWikiPageRun o).2.count GitEvent.cleanupCall = 1 ∧
     (listWikiPagesRun o).2.count GitEvent.cleanupCall = 1 ∧
     (deleteWikiPageRun o fileName).2.count GitEvent.cleanupCall = 1 ∧
     (readWikiPageRun o fileName).2.count GitEvent.cleanupCall = 1) ∧
    ∀ cu cu' : Except JsStr Unit,
      (writeWikiPageRun { o with cleanupResult := cu }).1 =
        (writeWikiPageRun { o with cleanupResult := cu' }).1 ∧
      (appendToWikiPageRun { o with cleanupResult := cu }).1 =
        (appendToWikiPageRun { o with cleanupResult := cu' }).1 ∧
      (listWikiPagesRun { o with cleanupResult := cu }).1 =
        (listWikiPagesRun { o with cleanupResult := cu' }).1 ∧
      (deleteWikiPageRun { o with cleanupResult := cu } fileName).1 =
        (deleteWikiPageRun { o with cleanupResult := cu' } fileName).1 ∧
      (readWikiPageRun { o with cleanupResult := cu } fileName).1 =
        (readWikiPageRun { o with cleanupResult := cu' } fileName).1 := by
  constructor
  · refine ⟨?_, ?_, ?_, ?_, ?_⟩
    · rw [writeWikiPageRun, h]
      exact withWorkingCopy_count_cleanup _ _ (writeBody_no_cleanup o)
    · rw [appendToWikiPageRun, h]
      exact withWorkingCopy_count_cleanup _ _ (appendBody_no_cleanup o)
    · rw [listWikiPagesRun, h]
      exact withWorkingCopy_count_cleanup _ _ (listBody_no_cleanup o)
    · rw [deleteWikiPageRun, h]
      exact withWorkingCopy_count_cleanup _ _ (deleteBody_no_cleanup o fileName)
    · rw [readWikiPageRun, h]
      exact withWorkingCopy_count_cleanup _ _ (readBody_no_cleanup o fileName)
  · intro cu cu'
    rcases o with ⟨cl, ac, rd, lo, ad, cm, pu, cuo⟩
    cases cl <;> exact ⟨rfl, rfl, rfl, rfl, rfl⟩

/-- C4 witness: with every stage succeeding, the write operation's trace
holds exactly one cleanup attempt. -/
theorem cleanup_exactly_once_witness :
    (writeWikiPageRun
      ⟨.ok (), .ok (), .ok (), .ok (), .ok (), .ok (), .ok (), .ok ()⟩).2.count
      GitEvent.cleanupCall = 1 :=
  (cleanup_exactly_once
    ⟨.ok (), .ok (), .ok (), .ok (), .ok (), .ok (), .ok (), .ok ()⟩
    (str "Home.md") rfl).1.1

/-! ## Claim C8 -/

/-- C8: when the clone step fails with transport message `msg`, the fresh
temporary directory is removed before the error propagates (the `rmTmpCall`
is in the trace the failing `cloneWiki` itself produces), the clone is
attempted exactly once (no retry), the operation's error wraps the
transport message as `Failed to clone wiki: <msg>`, and every one of the
five operations returns that error with that same three-event trace — in
particular the `finally` adds no second removal. -/
theorem cloneFailure_semantics (msg : JsStr) :
    cloneWikiRun (.error msg) =
      (.error (.cloneFailed msg),
       [.mkdtempCall, .cloneCall, .rmTmpCall]) ∧
    (WikiError.cloneFailed msg).message = str "Failed to clone wiki: " ++ msg ∧
    (cloneWikiRun (.error msg)).2.count GitEvent.cloneCall = 1 ∧
    (cloneWikiRun (.error msg)).2.count GitEvent.rmTmpCall = 1 ∧
    ∀ o : StageOracle, o.cloneResult = .error msg → ∀ fileName,
      writeWikiPageRun o = (.error (.cloneFailed msg),
        [.mkdtempCall, .cloneCall, .rmTmpCall]) ∧
      appendToWikiPageRun o = (.error (.cloneFailed msg),
        [.mkdtempCall, .cloneCall, .rmTmpCall]) ∧
      listWikiPagesRun o = (.error (.cloneFailed msg),
        [.mkdtempCall, .cloneCall, .rmTmpCall]) ∧
      deleteWikiPageRun o fileName = (.error (.cloneFailed msg),
        [.mkdtempCall, .cloneCall, .rmTmpCall]) ∧
      readWikiPageRun o fileName = (.error (.cloneFailed msg),
        [.mkdtempCall, .cloneCall, .rmTmpCall]) := by
  refine ⟨rfl, rfl, rfl, rfl, ?_⟩
  intro o h fileName
  refine ⟨?_, ?_, ?_, ?_, ?_⟩ <;>
    simp only [writeWikiPageRun, appendToWikiPageRun, listWikiPagesRun,
      deleteWikiPageRun, readWikiPageRun, h] <;> rfl

/-- C8 witness: an authentication failure during clone makes the write
operation fail with the wrapped message after the single-removal trace. -/
theorem cloneFailure_semantics_witness :
    writeWikiPageRun
      ⟨.error (str "auth"), .ok (), .ok (), .ok (), .ok (), .ok (), .ok (),
       .ok ()⟩ =
      (.error (.cloneFailed (str "auth")),
       [.mkdtempCall, .cloneCall, .rmTmpCall]) :=
  ((cloneFailure_semantics (str "auth")).2.2.2.2
    ⟨.error (str "auth"), .ok (), .ok (), .ok (), .ok (), .ok (), .ok (),
     .ok ()⟩ rfl (str "Home.md")).1

end WikiMcp
